import Mathlib

/-!
# Verification of `frol/nearlib` — `src/account.js`

This file gives a shallow embedding of the `Account` class of `src/account.js`
and of the base58 / key-pair helpers it uses, and proves properties of the
payload construction, nonce plumbing, error propagation and base58 round trip.

Conventions of the embedding:
* JavaScript byte buffers (`Uint8Array`, `Buffer`) are `List Nat` with byte
  values below 256.
* `async` methods performing network calls are functions in the `Except Err`
  monad; the `nearClient` collaborator is a record of such functions.
* Optional protobuf fields (fields that a `create` call may leave unset)
  are `Option` fields that default to `none`.
* JavaScript `number` arguments (`amount`, `fundingAmount`) are `Int`.
-/

namespace Nearlib

/-! ## Base58 helpers (spec-modelled)

`bs58` is an npm dependency, and `KeyPair` lives in `src/signing/key_pair.js`;
neither file is included under `src/`, so these are modelled from the spec. -/

/-- The standard base58 alphabet (Bitcoin alphabet used by the `bs58` npm
package): digits and letters without `0`, `O`, `I`, `l`. -/
def base58Alphabet : List Char :=
  "123456789ABCDEFGHJKLMNPQRSTUVWXYZabcdefghijkmnopqrstuvwxyz".toList

/-- Digit value of a base58 character: its index in the alphabet. -/
def b58Val (c : Char) : Nat := base58Alphabet.indexOf c

/-- Big-endian base-`b` digit expansion of `n`, with explicit structural fuel so
that it evaluates by kernel reduction. With `fuel ≥ n` and `b ≥ 2` it agrees
with `Nat.digits` (see `natDigitsLE_eq_digits`). -/
def natDigitsLE (b : Nat) : Nat → Nat → List Nat
  | 0, _ => []
  | _, 0 => []
  | fuel + 1, n + 1 => (n + 1) % b :: natDigitsLE b fuel ((n + 1) / b)

/-- Modelled from the spec: `bs58.decode` — base58 string to byte buffer, the
inverse of `bs58encode`, failing on any character outside the alphabet
(`none` models the thrown `Non-base58 character` error). Each leading `1`
becomes a leading zero byte; the remainder is read as a big-endian base-58
number and written out as big-endian base-256 bytes. -/
def bs58decode (s : String) : Option (List Nat) :=
  if ∀ c ∈ s.toList, c ∈ base58Alphabet then
    let z := (s.toList.takeWhile fun c => decide (c = '1')).length
    let rest := s.toList.dropWhile fun c => decide (c = '1')
    let n := Nat.ofDigits 58 (rest.map b58Val).reverse
    some (List.replicate z 0 ++ (natDigitsLE 256 n n).reverse)
  else none

/-- Modelled from the spec: the byte-buffer → base58 string encoding helper
(`KeyPair.encodeBufferInBs58` / `bs58.encode`). Each leading zero byte becomes
a `1`; the remainder is read as a big-endian base-256 number and written out
in base-58 digits. -/
def bs58encode (buffer : List Nat) : String :=
  let z := (buffer.takeWhile fun d => decide (d = 0)).length
  let rest := buffer.dropWhile fun d => decide (d = 0)
  let n := Nat.ofDigits 256 rest.reverse
  String.mk (List.replicate z '1' ++ ((natDigitsLE 58 n n).reverse.map fun d => base58Alphabet.getD d ' '))

/-- UTF-8 bytes of a string, as natural numbers: the embedding of
`new Uint8Array(Buffer.from(methodName))` from `src/account.js` line 80. -/
def utf8Bytes (s : String) : List Nat :=
  (s.data.flatMap String.utf8EncodeChar).map UInt8.toNat

/-! ## Data model: transaction payloads (from `./protos`) -/

/-- The `AccessKey` protobuf message built in `Account.addAccessKey`
(`src/account.js` lines 74-90). All four fields are optional wrapper fields
that `AccessKey.create(\x7b\x7d)` leaves unset. -/
structure AccessKey where
  contractId : Option String := none
  methodName : Option (List Nat) := none
  balanceOwner : Option String := none
  amount : Option Int := none
deriving DecidableEq

/-- The `CreateAccountTransaction` payload (`src/account.js` lines 32-42);
`amount` is optional because the code omits it when it equals zero. -/
structure CreateAccountTransaction where
  nonce : Nat
  originator : String
  newAccountId : String
  publicKey : List Nat
  amount : Option Int := none
deriving DecidableEq

/-- The `AddKeyTransaction` payload (`src/account.js` lines 92-97); `accessKey`
is optional because it is left `undefined` when `contractId` is empty. -/
structure AddKeyTransaction where
  nonce : Nat
  originator : String
  newKey : List Nat
  accessKey : Option AccessKey := none
deriving DecidableEq

/-- The `DeleteKeyTransaction` payload (`src/account.js` lines 109-113). -/
structure DeleteKeyTransaction where
  nonce : Nat
  originator : String
  curKey : List Nat
deriving DecidableEq

/-- A transaction payload handed to `nearClient.signAndSubmitTransaction`. -/
inductive Transaction where
  | createAccount : CreateAccountTransaction → Transaction
  | addKey : AddKeyTransaction → Transaction
  | deleteKey : DeleteKeyTransaction → Transaction
deriving DecidableEq

/-! ## Errors and the `nearClient` collaborator -/

/-- Errors surfaced by an `Account` operation: an error thrown by the
`nearClient` collaborator (carried verbatim), or the `Non-base58 character`
error thrown by `bs58.decode`. -/
inductive Err where
  | rpc : String → Err
  | nonBase58 : Err
deriving DecidableEq

/-- A positional JSON-RPC parameter (the params of the `abci_query` call mix
strings and a boolean). -/
inductive RpcParam where
  | str : String → RpcParam
  | bool : Bool → RpcParam
deriving DecidableEq

/-- The `response` part of a JSON-RPC reply; `value` is the raw payload fed to
`decodeResponseValue` (`src/account.js` line 155). -/
structure RpcResult (ν : Type) where
  value : ν
deriving DecidableEq

/-- A JSON-RPC reply; the code reads `response.response.value`. -/
structure RpcResponse (ν : Type) where
  response : RpcResult ν
deriving DecidableEq

/-- The second component of a decoded access-key entry: a record with
`contract_id` and `amount` fields (`src/account.js` lines 162-163). -/
structure AccessKeyInfo where
  contract_id : String
  amount : Int
deriving DecidableEq

/-- One element of `result.authorizedApps` (`src/account.js` lines 161-165). -/
structure AuthorizedApp where
  contractId : String
  amount : Int
  publicKey : String
deriving DecidableEq

/-- The value returned by `getAccountDetails` (`src/account.js` lines 156-159).
The element type of the never-populated `transactions` list is unconstrained
by the code; `String` is chosen arbitrarily. -/
structure AccountDetails where
  authorizedApps : List AuthorizedApp
  transactions : List String
deriving DecidableEq

/-- The external `nearClient` collaborator. `ρ` is the opaque type of
submission results, `α` of account views, `ν` of raw RPC response values.
The decoded response mapping is modelled as the list of its entries in
iteration order, each entry pairing the stored key bytes with the access-key
info (JS `decodedResponse[key][0]` and `decodedResponse[key][1]`). -/
structure NearClient (ρ α ν : Type) where
  getNonce : String → Except Err Nat
  signAndSubmitTransaction : String → Transaction → Except Err ρ
  viewAccount : String → Except Err α
  jsonRpcRequest : String → List RpcParam → Except Err (RpcResponse ν)
  decodeResponseValue : ν → List (List Nat × AccessKeyInfo)

/-- Modelled from the spec: `KeyPair` (`src/signing/key_pair.js`, not included
under `src/`) holds the key bytes of an Ed25519 pair; `getPublicKey` exposes
the public key as a base58-encoded string. -/
structure KeyPair where
  publicKey : List Nat
  secretKey : List Nat
deriving DecidableEq

/-- Modelled from the spec: `KeyPair.getPublicKey() -> base58 string`. -/
def KeyPair.getPublicKey (kp : KeyPair) : String := bs58encode kp.publicKey

/-- Modelled from the spec: `KeyPair.encodeBufferInBs58`, the byte-buffer →
base58 string helper used for all key material (`src/account.js` line 164). -/
def KeyPair.encodeBufferInBs58 (buffer : List Nat) : String := bs58encode buffer

/-- The `Account` class: a thin wrapper around a `nearClient`
(`src/account.js` lines 11-14). -/
structure Account (ρ α ν : Type) where
  nearClient : NearClient ρ α ν

/-! ## Payload builders (the pure construction parts of the methods) -/

/-- The `CreateAccountTransaction.create` call plus the conditional amount
assignment of `Account.createAccount` (`src/account.js` lines 32-42): the
`amount` field is set exactly when `amount !== 0`. -/
def createAccountPayload (nonce : Nat) (originator newAccountId : String)
    (publicKey : List Nat) (amount : Int) : CreateAccountTransaction :=
  { nonce := nonce, originator := originator, newAccountId := newAccountId,
    publicKey := publicKey,
    amount := if amount = 0 then none else some amount }

/-- The access-key construction of `Account.addAccessKey` (`src/account.js`
lines 72-91): no `AccessKey` at all when `contractId` is falsy (empty);
otherwise `contractId` always set, `methodName` set only when non-empty (as
UTF-8 bytes), `balanceOwner` only when `fundingOwner` is non-empty, `amount`
only when `fundingAmount > 0`. -/
def buildAccessKey (contractId methodName fundingOwner : String)
    (fundingAmount : Int) : Option AccessKey :=
  if contractId = "" then none
  else some
    { contractId := some contractId,
      methodName := if methodName = "" then none else some (utf8Bytes methodName),
      balanceOwner := if fundingOwner = "" then none else some fundingOwner,
      amount := if fundingAmount > 0 then some fundingAmount else none }

/-- The `AddKeyTransaction.create` call (`src/account.js` lines 92-97). -/
def addKeyPayload (nonce : Nat) (originator : String) (newKey : List Nat)
    (accessKey : Option AccessKey) : AddKeyTransaction :=
  { nonce := nonce, originator := originator, newKey := newKey, accessKey := accessKey }

/-- The `DeleteKeyTransaction.create` call (`src/account.js` lines 109-113). -/
def deleteKeyPayload (nonce : Nat) (originator : String) (curKey : List Nat) :
    DeleteKeyTransaction :=
  { nonce := nonce, originator := originator, curKey := curKey }

/-! ## The `Account` operations -/

/-- `Account.createAccount` (`src/account.js` lines 29-45): fetch the nonce for
the originator, base58-decode the public key, build the payload, sign and
submit. -/
def Account.createAccount {ρ α ν : Type} (a : Account ρ α ν)
    (newAccountId publicKey : String) (amount : Int) (originator : String) :
    Except Err ρ := do
  let nonce ← a.nearClient.getNonce originator
  match bs58decode publicKey with
  | none => Except.error Err.nonBase58
  | some pk =>
      a.nearClient.signAndSubmitTransaction originator
        (Transaction.createAccount (createAccountPayload nonce originator newAccountId pk amount))

/-- `Account.addAccessKey` (`src/account.js` lines 69-99): fetch the nonce for
the owner, base58-decode the new public key, build the optional access key and
the AddKey payload, sign and submit. -/
def Account.addAccessKey {ρ α ν : Type} (a : Account ρ α ν)
    (ownersAccountId newPublicKey contractId methodName fundingOwner : String)
    (fundingAmount : Int) : Except Err ρ := do
  let nonce ← a.nearClient.getNonce ownersAccountId
  match bs58decode newPublicKey with
  | none => Except.error Err.nonBase58
  | some pk =>
      a.nearClient.signAndSubmitTransaction ownersAccountId
        (Transaction.addKey (addKeyPayload nonce ownersAccountId pk
          (buildAccessKey contractId methodName fundingOwner fundingAmount)))

/-- `Account.removeAccessKey` (`src/account.js` lines 106-114). -/
def Account.removeAccessKey {ρ α ν : Type} (a : Account ρ α ν)
    (ownersAccountId publicKey : String) : Except Err ρ := do
  let nonce ← a.nearClient.getNonce ownersAccountId
  match bs58decode publicKey with
  | none => Except.error Err.nonBase58
  | some decodedKey =>
      a.nearClient.signAndSubmitTransaction ownersAccountId
        (Transaction.deleteKey (deleteKeyPayload nonce ownersAccountId decodedKey))

/-- `Account.createAccountWithRandomKey` (`src/account.js` lines 128-137).
The entropy draw `KeyPair.fromRandomSeed()` is modelled by passing the drawn
key pair `keyWithRandomSeed` as an explicit parameter; the JS result object
spread is modelled as a pair. -/
def Account.createAccountWithRandomKey {ρ α ν : Type} (a : Account ρ α ν)
    (keyWithRandomSeed : KeyPair) (newAccountId : String) (amount : Int)
    (originatorAccountId : String) : Except Err (KeyPair × ρ) := do
  let createAccountResult ← Account.createAccount a newAccountId
    (KeyPair.getPublicKey keyWithRandomSeed) amount originatorAccountId
  pure (keyWithRandomSeed, createAccountResult)

/-- `Account.viewAccount` (`src/account.js` lines 145-147). -/
def Account.viewAccount {ρ α ν : Type} (a : Account ρ α ν) (accountId : String) :
    Except Err α :=
  a.nearClient.viewAccount accountId

/-- The positional parameters of the `abci_query` RPC call
(`src/account.js` line 154). -/
def accessKeyQueryParams (accountId : String) : List RpcParam :=
  [RpcParam.str ("access_key/" ++ accountId), RpcParam.str "", RpcParam.str "0",
   RpcParam.bool false]

/-- `Account.getAccountDetails` (`src/account.js` lines 153-168): query the
access keys, decode, and reshape each entry; `transactions` stays empty. -/
def Account.getAccountDetails {ρ α ν : Type} (a : Account ρ α ν)
    (accountId : String) : Except Err AccountDetails := do
  let response ← a.nearClient.jsonRpcRequest "abci_query" (accessKeyQueryParams accountId)
  let decodedResponse := a.nearClient.decodeResponseValue response.response.value
  pure
    { authorizedApps := decodedResponse.map fun entry =>
        { contractId := entry.2.contract_id,
          amount := entry.2.amount,
          publicKey := KeyPair.encodeBufferInBs58 entry.1 },
      transactions := [] }

/-! ## Concrete clients used to exercise the operations on closed inputs -/

/-- A client whose calls all succeed, with one decoded access-key entry. -/
def okClient : NearClient Nat Nat Nat :=
  { getNonce := fun _ => Except.ok 7,
    signAndSubmitTransaction := fun _ _ => Except.ok 42,
    viewAccount := fun _ => Except.ok 1,
    jsonRpcRequest := fun _ _ => Except.ok ⟨⟨0⟩⟩,
    decodeResponseValue := fun _ => [([0, 1], ⟨"contractX", 5⟩)] }

/-- An account over `okClient`. -/
def okAccount : Account Nat Nat Nat := ⟨okClient⟩

/-- A client whose calls all fail with the same RPC error. -/
def errClient : NearClient Nat Nat Nat :=
  { getNonce := fun _ => Except.error (Err.rpc "boom"),
    signAndSubmitTransaction := fun _ _ => Except.error (Err.rpc "boom"),
    viewAccount := fun _ => Except.error (Err.rpc "boom"),
    jsonRpcRequest := fun _ _ => Except.error (Err.rpc "boom"),
    decodeResponseValue := fun _ => [] }

/-- An account over `errClient`. -/
def errAccount : Account Nat Nat Nat := ⟨errClient⟩

/-- A client where the nonce fetch succeeds but submission is rejected. -/
def submitErrClient : NearClient Nat Nat Nat :=
  { getNonce := fun _ => Except.ok 7,
    signAndSubmitTransaction := fun _ _ => Except.error (Err.rpc "rejected"),
    viewAccount := fun _ => Except.ok 1,
    jsonRpcRequest := fun _ _ => Except.ok ⟨⟨0⟩⟩,
    decodeResponseValue := fun _ => [] }

/-- An account over `submitErrClient`. -/
def submitErrAccount : Account Nat Nat Nat := ⟨submitErrClient⟩

/-- Reduction of a `do` bind on an already-successful `Except` value. -/
theorem except_ok_bind {ε β γ : Type} (x : β) (f : β → Except ε γ) :
    (do
      let y ← (Except.ok x : Except ε β)
      f y) = f x := rfl

/-! ## Claims about payload construction -/

/-- C1: for every call to `createAccount`, if `amount` equals zero the
constructed CreateAccount transaction payload contains no amount field at all,
and if `amount = k > 0` the payload's amount field is exactly `k`. -/
theorem createAccount_amount_field (nonce : Nat) (originator newAccountId : String)
    (pk : List Nat) (k : Int) :
    (createAccountPayload nonce originator newAccountId pk 0).amount = none ∧
    (0 < k → (createAccountPayload nonce originator newAccountId pk k).amount = some k) := by
  refine ⟨by simp [createAccountPayload], fun hk => ?_⟩
  simp [createAccountPayload, hk.ne']

/-- Witness for C1 at `k = 5`. -/
theorem createAccount_amount_field_witness :
    (createAccountPayload 7 "alice" "eve" [1] 0).amount = none ∧
    (createAccountPayload 7 "alice" "eve" [1] 5).amount = some 5 :=
  ⟨(createAccount_amount_field 7 "alice" "eve" [1] 5).1,
   (createAccount_amount_field 7 "alice" "eve" [1] 5).2 (by decide)⟩

/-- C9: for every `amount < 0`, `createAccount` still sets the amount field on
the constructed payload (the omission test is `amount !== 0`, not
`amount > 0`), and no local validation rejects or drops the negative amount:
the transaction is submitted as built. -/
theorem createAccount_negative_amount {ρ α ν : Type} (a : Account ρ α ν)
    (newAccountId publicKey originator : String) (amount : Int) (nonce : Nat)
    (pk : List Nat) (hneg : amount < 0)
    (hn : a.nearClient.getNonce originator = Except.ok nonce)
    (hd : bs58decode publicKey = some pk) :
    (createAccountPayload nonce originator newAccountId pk amount).amount = some amount ∧
    Account.createAccount a newAccountId publicKey amount originator =
      a.nearClient.signAndSubmitTransaction originator
        (Transaction.createAccount
          (createAccountPayload nonce originator newAccountId pk amount)) := by
  refine ⟨by simp [createAccountPayload, hneg.ne], ?_⟩
  simp [Account.createAccount, hn, hd, except_ok_bind]

/-- Witness for C9 at `amount = -5` against `okAccount`. -/
theorem createAccount_negative_amount_witness :
    (createAccountPayload 7 "alice" "eve" [1] (-5)).amount = some (-5) ∧
    Account.createAccount okAccount "eve" "2" (-5) "alice" =
      okAccount.nearClient.signAndSubmitTransaction "alice"
        (Transaction.createAccount (createAccountPayload 7 "alice" "eve" [1] (-5))) :=
  createAccount_negative_amount okAccount "eve" "2" "alice" (-5) 7 [1]
    (by decide) rfl (by decide)

/-- C2: for every call to `addAccessKey`, if `contractId` is the empty string
then no `AccessKey` structure is constructed and the AddKey transaction is
submitted with no `accessKey` (fully unrestricted key); if `contractId` is
non-empty and `methodName` is the empty string, the constructed `AccessKey`
has `contractId` set and has no `methodName` field. -/
theorem addAccessKey_scoping {ρ α ν : Type} (a : Account ρ α ν)
    (ownersAccountId newPublicKey methodName fundingOwner : String)
    (fundingAmount : Int) (nonce : Nat) (pk : List Nat)
    (hn : a.nearClient.getNonce ownersAccountId = Except.ok nonce)
    (hd : bs58decode newPublicKey = some pk) :
    (buildAccessKey "" methodName fundingOwner fundingAmount = none ∧
      Account.addAccessKey a ownersAccountId newPublicKey "" methodName fundingOwner
          fundingAmount =
        a.nearClient.signAndSubmitTransaction ownersAccountId
          (Transaction.addKey (addKeyPayload nonce ownersAccountId pk none))) ∧
    ∀ contractId, contractId ≠ "" →
      ∃ ak, buildAccessKey contractId "" fundingOwner fundingAmount = some ak ∧
        ak.contractId = some contractId ∧ ak.methodName = none := by
  refine ⟨⟨by simp [buildAccessKey], ?_⟩, fun contractId hc => ?_⟩
  · simp [Account.addAccessKey, hn, hd, buildAccessKey, except_ok_bind]
  · exact ⟨{ contractId := some contractId, methodName := none,
             balanceOwner := if fundingOwner = "" then none else some fundingOwner,
             amount := if fundingAmount > 0 then some fundingAmount else none },
           by simp [buildAccessKey, hc], rfl, rfl⟩

/-- Witness for C2 against `okAccount`, with `methodName = "m"` in the empty
`contractId` part and `contractId = "contractX"` in the scoped part. -/
theorem addAccessKey_scoping_witness :
    (buildAccessKey "" "m" "" 0 = none ∧
      Account.addAccessKey okAccount "alice" "2" "" "m" "" 0 =
        okAccount.nearClient.signAndSubmitTransaction "alice"
          (Transaction.addKey (addKeyPayload 7 "alice" [1] none))) ∧
    ∃ ak, buildAccessKey "contractX" "" "" 0 = some ak ∧
      ak.contractId = some "contractX" ∧ ak.methodName = none :=
  ⟨(addAccessKey_scoping okAccount "alice" "2" "m" "" 0 7 [1] rfl (by decide)).1,
   (addAccessKey_scoping okAccount "alice" "2" "m" "" 0 7 [1] rfl (by decide)).2
     "contractX" (by decide)⟩

/-- C3: for every call to `addAccessKey` with non-empty `contractId`, the
constructed `AccessKey` sets `contractId` always; sets `methodName` only if
`methodName` is non-empty, encoded as the raw UTF-8 bytes of the method name;
sets `balanceOwner` only if `fundingOwner` is non-empty; and sets `amount`
only if `fundingAmount > 0`; and that access key is what the submitted AddKey
transaction carries. -/
theorem addAccessKey_scoped_fields {ρ α ν : Type} (a : Account ρ α ν)
    (ownersAccountId newPublicKey contractId methodName fundingOwner : String)
    (fundingAmount : Int) (nonce : Nat) (pk : List Nat)
    (hc : contractId ≠ "")
    (hn : a.nearClient.getNonce ownersAccountId = Except.ok nonce)
    (hd : bs58decode newPublicKey = some pk) :
    ∃ ak, buildAccessKey contractId methodName fundingOwner fundingAmount = some ak ∧
      ak.contractId = some contractId ∧
      ak.methodName = (if methodName = "" then none else some (utf8Bytes methodName)) ∧
      ak.balanceOwner = (if fundingOwner = "" then none else some fundingOwner) ∧
      ak.amount = (if fundingAmount > 0 then some fundingAmount else none) ∧
      Account.addAccessKey a ownersAccountId newPublicKey contractId methodName
          fundingOwner fundingAmount =
        a.nearClient.signAndSubmitTransaction ownersAccountId
          (Transaction.addKey (addKeyPayload nonce ownersAccountId pk (some ak))) := by
  refine ⟨{ contractId := some contractId,
            methodName := if methodName = "" then none else some (utf8Bytes methodName),
            balanceOwner := if fundingOwner = "" then none else some fundingOwner,
            amount := if fundingAmount > 0 then some fundingAmount else none },
          by simp [buildAccessKey, hc], rfl, rfl, rfl, rfl, ?_⟩
  simp [Account.addAccessKey, hn, hd, buildAccessKey, hc, except_ok_bind]

/-- Witness for C3 against `okAccount` with `contractId = "contractX"`,
`methodName = "m"`, `fundingOwner = "bob"`, `fundingAmount = 3`. -/
theorem addAccessKey_scoped_fields_witness :
    ∃ ak, buildAccessKey "contractX" "m" "bob" 3 = some ak ∧
      ak.contractId = some "contractX" ∧
      ak.methodName = (if "m" = "" then none else some (utf8Bytes "m")) ∧
      ak.balanceOwner = (if "bob" = "" then none else some "bob") ∧
      ak.amount = (if (3 : Int) > 0 then some 3 else none) ∧
      Account.addAccessKey okAccount "alice" "2" "contractX" "m" "bob" 3 =
        okAccount.nearClient.signAndSubmitTransaction "alice"
          (Transaction.addKey (addKeyPayload 7 "alice" [1] (some ak))) :=
  addAccessKey_scoped_fields okAccount "alice" "2" "contractX" "m" "bob" 3 7 [1]
    (by decide) rfl (by decide)

/-- C10: for every call to `addAccessKey` with empty `contractId` and
non-empty `methodName`, the `methodName` is silently ignored: the submitted
AddKey transaction carries no `AccessKey` structure at all and no error is
raised at construction time (the call succeeds whenever the collaborators
succeed). -/
theorem addAccessKey_empty_contract_ignores_method {ρ α ν : Type} (a : Account ρ α ν)
    (ownersAccountId newPublicKey methodName fundingOwner : String)
    (fundingAmount : Int) (nonce : Nat) (pk : List Nat) (r : ρ)
    (hm : methodName ≠ "")
    (hn : a.nearClient.getNonce ownersAccountId = Except.ok nonce)
    (hd : bs58decode newPublicKey = some pk)
    (hs : a.nearClient.signAndSubmitTransaction ownersAccountId
        (Transaction.addKey (addKeyPayload nonce ownersAccountId pk none)) =
      Except.ok r) :
    buildAccessKey "" methodName fundingOwner fundingAmount = none ∧
    Account.addAccessKey a ownersAccountId newPublicKey "" methodName fundingOwner
        fundingAmount = Except.ok r := by
  refine ⟨by simp [buildAccessKey], ?_⟩
  simp [Account.addAccessKey, hn, hd, buildAccessKey, hs, except_ok_bind]

/-- Witness for C10 against `okAccount` with `methodName = "m"`. -/
theorem addAccessKey_empty_contract_ignores_method_witness :
    buildAccessKey "" "m" "" 0 = none ∧
    Account.addAccessKey okAccount "alice" "2" "" "m" "" 0 = Except.ok 42 :=
  addAccessKey_empty_contract_ignores_method okAccount "alice" "2" "m" "" 0 7 [1] 42
    (by decide) rfl (by decide) rfl

/-- Reduction of a `do` bind on an already-failed `Except` value. -/
theorem except_error_bind {ε β γ : Type} (e : ε) (f : β → Except ε γ) :
    (do
      let y ← (Except.error e : Except ε β)
      f y) = Except.error e := rfl

/-- C4: for every call to `createAccount`, `addAccessKey`, or
`removeAccessKey`, the nonce field of the constructed transaction payload
equals exactly the value returned by `nearClient.getNonce` for the
originator/owner account id, and the nonce fetch happens before the
transaction is built and submitted (each operation is the bind of the nonce
fetch with a submission of a payload built from the fetched nonce). -/
theorem submitted_nonce_matches_getNonce {ρ α ν : Type} (a : Account ρ α ν) :
    (∀ newAccountId publicKey amount originator nonce pk,
        a.nearClient.getNonce originator = Except.ok nonce →
        bs58decode publicKey = some pk →
        Account.createAccount a newAccountId publicKey amount originator =
          a.nearClient.signAndSubmitTransaction originator
            (Transaction.createAccount
              (createAccountPayload nonce originator newAccountId pk amount)) ∧
        (createAccountPayload nonce originator newAccountId pk amount).nonce = nonce) ∧
    (∀ ownersAccountId newPublicKey contractId methodName fundingOwner fundingAmount
        nonce pk,
        a.nearClient.getNonce ownersAccountId = Except.ok nonce →
        bs58decode newPublicKey = some pk →
        Account.addAccessKey a ownersAccountId newPublicKey contractId methodName
            fundingOwner fundingAmount =
          a.nearClient.signAndSubmitTransaction ownersAccountId
            (Transaction.addKey (addKeyPayload nonce ownersAccountId pk
              (buildAccessKey contractId methodName fundingOwner fundingAmount))) ∧
        (addKeyPayload nonce ownersAccountId pk
          (buildAccessKey contractId methodName fundingOwner fundingAmount)).nonce = nonce) ∧
    (∀ ownersAccountId publicKey nonce pk,
        a.nearClient.getNonce ownersAccountId = Except.ok nonce →
        bs58decode publicKey = some pk →
        Account.removeAccessKey a ownersAccountId publicKey =
          a.nearClient.signAndSubmitTransaction ownersAccountId
            (Transaction.deleteKey (deleteKeyPayload nonce ownersAccountId pk)) ∧
        (deleteKeyPayload nonce ownersAccountId pk).nonce = nonce) := by
  refine ⟨fun _ _ _ _ _ _ hn hd => ⟨?_, rfl⟩,
          fun _ _ _ _ _ _ _ _ hn hd => ⟨?_, rfl⟩,
          fun _ _ _ _ hn hd => ⟨?_, rfl⟩⟩
  · simp [Account.createAccount, hn, hd, except_ok_bind]
  · simp [Account.addAccessKey, hn, hd, except_ok_bind]
  · simp [Account.removeAccessKey, hn, hd, except_ok_bind]

/-- Witness for C4: the three operations against `okAccount`, whose
`getNonce` always answers `7`. -/
theorem submitted_nonce_matches_getNonce_witness :
    (Account.createAccount okAccount "eve" "2" 0 "alice" =
        okAccount.nearClient.signAndSubmitTransaction "alice"
          (Transaction.createAccount (createAccountPayload 7 "alice" "eve" [1] 0)) ∧
      (createAccountPayload 7 "alice" "eve" [1] 0).nonce = 7) ∧
    (Account.addAccessKey okAccount "alice" "2" "contractX" "m" "bob" 3 =
        okAccount.nearClient.signAndSubmitTransaction "alice"
          (Transaction.addKey (addKeyPayload 7 "alice" [1]
            (buildAccessKey "contractX" "m" "bob" 3))) ∧
      (addKeyPayload 7 "alice" [1] (buildAccessKey "contractX" "m" "bob" 3)).nonce = 7) ∧
    (Account.removeAccessKey okAccount "alice" "2" =
        okAccount.nearClient.signAndSubmitTransaction "alice"
          (Transaction.deleteKey (deleteKeyPayload 7 "alice" [1])) ∧
      (deleteKeyPayload 7 "alice" [1]).nonce = 7) :=
  ⟨(submitted_nonce_matches_getNonce okAccount).1 "eve" "2" 0 "alice" 7 [1]
      rfl (by decide),
   (submitted_nonce_matches_getNonce okAccount).2.1 "alice" "2" "contractX" "m" "bob" 3
      7 [1] rfl (by decide),
   (submitted_nonce_matches_getNonce okAccount).2.2 "alice" "2" 7 [1]
      rfl (by decide)⟩

/-- C6: `createAccountWithRandomKey` performs `createAccount` with the freshly
generated key pair's base58-encoded public key and the given arguments, and
returns both the generated key pair and the submission result. The entropy
draw is modelled by the explicit `kp` parameter. -/
theorem createAccountWithRandomKey_returns_key_and_result {ρ α ν : Type}
    (a : Account ρ α ν) (kp : KeyPair) (newAccountId : String) (amount : Int)
    (originatorAccountId : String) (nonce : Nat) (pk : List Nat) (r : ρ)
    (hn : a.nearClient.getNonce originatorAccountId = Except.ok nonce)
    (hd : bs58decode (KeyPair.getPublicKey kp) = some pk)
    (hs : a.nearClient.signAndSubmitTransaction originatorAccountId
        (Transaction.createAccount
          (createAccountPayload nonce originatorAccountId newAccountId pk amount)) =
      Except.ok r) :
    Account.createAccountWithRandomKey a kp newAccountId amount originatorAccountId =
      Except.ok (kp, r) ∧
    Account.createAccountWithRandomKey a kp newAccountId amount originatorAccountId =
      (Account.createAccount a newAccountId (KeyPair.getPublicKey kp) amount
          originatorAccountId).map fun res => (kp, res) := by
  have hca : Account.createAccount a newAccountId (KeyPair.getPublicKey kp) amount
      originatorAccountId = Except.ok r := by
    simp [Account.createAccount, hn, hd, except_ok_bind, hs]
  constructor
  · simp [Account.createAccountWithRandomKey, hca, except_ok_bind]
  · simp [Account.createAccountWithRandomKey, hca, except_ok_bind, Except.map]

/-- Witness for C6: a key pair with public key bytes `[0, 1]` (base58 `"12"`)
against `okAccount`. -/
theorem createAccountWithRandomKey_returns_key_and_result_witness :
    Account.createAccountWithRandomKey okAccount ⟨[0, 1], [2]⟩ "eve" 10 "alice" =
      Except.ok (⟨[0, 1], [2]⟩, 42) ∧
    Account.createAccountWithRandomKey okAccount ⟨[0, 1], [2]⟩ "eve" 10 "alice" =
      (Account.createAccount okAccount "eve" (KeyPair.getPublicKey ⟨[0, 1], [2]⟩) 10
          "alice").map fun res => (⟨[0, 1], [2]⟩, res) :=
  createAccountWithRandomKey_returns_key_and_result okAccount ⟨[0, 1], [2]⟩ "eve" 10
    "alice" 7 [0, 1] 42 rfl (by decide) rfl

/-- C7: for every `Account` operation, an error raised by the nonce fetch or
by the submission collaborator (for `viewAccount` the view call, for
`getAccountDetails` the RPC request) propagates to the caller unchanged:
no retry, no recovery, no reinterpretation. -/
theorem errors_propagate_unchanged {ρ α ν : Type} (a : Account ρ α ν) (e : Err) :
    (∀ newAccountId publicKey amount originator,
        a.nearClient.getNonce originator = Except.error e →
        Account.createAccount a newAccountId publicKey amount originator =
          Except.error e) ∧
    (∀ ownersAccountId newPublicKey contractId methodName fundingOwner fundingAmount,
        a.nearClient.getNonce ownersAccountId = Except.error e →
        Account.addAccessKey a ownersAccountId newPublicKey contractId methodName
          fundingOwner fundingAmount = Except.error e) ∧
    (∀ ownersAccountId publicKey,
        a.nearClient.getNonce ownersAccountId = Except.error e →
        Account.removeAccessKey a ownersAccountId publicKey = Except.error e) ∧
    (∀ newAccountId publicKey amount originator nonce pk,
        a.nearClient.getNonce originator = Except.ok nonce →
        bs58decode publicKey = some pk →
        a.nearClient.signAndSubmitTransaction originator
            (Transaction.createAccount
              (createAccountPayload nonce originator newAccountId pk amount)) =
          Except.error e →
        Account.createAccount a newAccountId publicKey amount originator =
          Except.error e) ∧
    (∀ ownersAccountId newPublicKey contractId methodName fundingOwner fundingAmount
        nonce pk,
        a.nearClient.getNonce ownersAccountId = Except.ok nonce →
        bs58decode newPublicKey = some pk →
        a.nearClient.signAndSubmitTransaction ownersAccountId
            (Transaction.addKey (addKeyPayload nonce ownersAccountId pk
              (buildAccessKey contractId methodName fundingOwner fundingAmount))) =
          Except.error e →
        Account.addAccessKey a ownersAccountId newPublicKey contractId methodName
          fundingOwner fundingAmount = Except.error e) ∧
    (∀ ownersAccountId publicKey nonce pk,
        a.nearClient.getNonce ownersAccountId = Except.ok nonce →
        bs58decode publicKey = some pk →
        a.nearClient.signAndSubmitTransaction ownersAccountId
            (Transaction.deleteKey (deleteKeyPayload nonce ownersAccountId pk)) =
          Except.error e →
        Account.removeAccessKey a ownersAccountId publicKey = Except.error e) ∧
    (∀ accountId,
        a.nearClient.viewAccount accountId = Except.error e →
        Account.viewAccount a accountId = Except.error e) ∧
    (∀ accountId,
        a.nearClient.jsonRpcRequest "abci_query" (accessKeyQueryParams accountId) =
          Except.error e →
        Account.getAccountDetails a accountId = Except.error e) := by
  refine ⟨fun _ _ _ _ hn => ?_, fun _ _ _ _ _ _ hn => ?_, fun _ _ hn => ?_,
          fun _ _ _ _ _ _ hn hd hs => ?_, fun _ _ _ _ _ _ _ _ hn hd hs => ?_,
          fun _ _ _ _ hn hd hs => ?_, fun _ hv => ?_, fun _ hq => ?_⟩
  · simp [Account.createAccount, hn, except_error_bind]
  · simp [Account.addAccessKey, hn, except_error_bind]
  · simp [Account.removeAccessKey, hn, except_error_bind]
  · simp [Account.createAccount, hn, hd, except_ok_bind, hs]
  · simp [Account.addAccessKey, hn, hd, except_ok_bind, hs]
  · simp [Account.removeAccessKey, hn, hd, except_ok_bind, hs]
  · simpa [Account.viewAccount] using hv
  · simp [Account.getAccountDetails, hq, except_error_bind]

/-- Witness for C7: nonce-fetch failures against `errAccount`, submission
failures against `submitErrAccount`, and view/RPC failures against
`errAccount`. -/
theorem errors_propagate_unchanged_witness :
    Account.createAccount errAccount "eve" "2" 0 "alice" =
      Except.error (Err.rpc "boom") ∧
    Account.addAccessKey errAccount "alice" "2" "contractX" "m" "bob" 3 =
      Except.error (Err.rpc "boom") ∧
    Account.removeAccessKey errAccount "alice" "2" = Except.error (Err.rpc "boom") ∧
    Account.createAccount submitErrAccount "eve" "2" 0 "alice" =
      Except.error (Err.rpc "rejected") ∧
    Account.addAccessKey submitErrAccount "alice" "2" "contractX" "m" "bob" 3 =
      Except.error (Err.rpc "rejected") ∧
    Account.removeAccessKey submitErrAccount "alice" "2" =
      Except.error (Err.rpc "rejected") ∧
    Account.viewAccount errAccount "alice" = Except.error (Err.rpc "boom") ∧
    Account.getAccountDetails errAccount "alice" = Except.error (Err.rpc "boom") :=
  ⟨(errors_propagate_unchanged errAccount (Err.rpc "boom")).1 "eve" "2" 0 "alice" rfl,
   (errors_propagate_unchanged errAccount (Err.rpc "boom")).2.1 "alice" "2" "contractX"
      "m" "bob" 3 rfl,
   (errors_propagate_unchanged errAccount (Err.rpc "boom")).2.2.1 "alice" "2" rfl,
   (errors_propagate_unchanged submitErrAccount (Err.rpc "rejected")).2.2.2.1 "eve" "2"
      0 "alice" 7 [1] rfl (by decide) rfl,
   (errors_propagate_unchanged submitErrAccount (Err.rpc "rejected")).2.2.2.2.1 "alice"
      "2" "contractX" "m" "bob" 3 7 [1] rfl (by decide) rfl,
   (errors_propagate_unchanged submitErrAccount (Err.rpc "rejected")).2.2.2.2.2.1
      "alice" "2" 7 [1] rfl (by decide) rfl,
   (errors_propagate_unchanged errAccount (Err.rpc "boom")).2.2.2.2.2.2.1 "alice" rfl,
   (errors_propagate_unchanged errAccount (Err.rpc "boom")).2.2.2.2.2.2.2 "alice" rfl⟩

/-- C5: for every call to `getAccountDetails`, the returned `transactions`
list is empty, and the returned `authorizedApps` list contains, for each entry
of the decoded response mapping, exactly one record
`(contractId, amount, publicKey)` where `publicKey` is the base58 encoding of
the stored key bytes. -/
theorem getAccountDetails_shape {ρ α ν : Type} (a : Account ρ α ν)
    (accountId : String) (resp : RpcResponse ν)
    (h : a.nearClient.jsonRpcRequest "abci_query" (accessKeyQueryParams accountId) =
      Except.ok resp) :
    Account.getAccountDetails a accountId =
      Except.ok
        { authorizedApps :=
            (a.nearClient.decodeResponseValue resp.response.value).map fun entry =>
              { contractId := entry.2.contract_id, amount := entry.2.amount,
                publicKey := KeyPair.encodeBufferInBs58 entry.1 },
          transactions := [] } ∧
    ∀ d, Account.getAccountDetails a accountId = Except.ok d →
      d.transactions = [] := by
  have h1 : Account.getAccountDetails a accountId =
      Except.ok
        { authorizedApps :=
            (a.nearClient.decodeResponseValue resp.response.value).map fun entry =>
              { contractId := entry.2.contract_id, amount := entry.2.amount,
                publicKey := KeyPair.encodeBufferInBs58 entry.1 },
          transactions := ([] : List String) } := by
    simp [Account.getAccountDetails, h, except_ok_bind]
  refine ⟨h1, fun d hd => ?_⟩
  rw [h1] at hd
  cases hd
  rfl

/-- Witness for C5 against `okAccount`, whose decoded response holds one entry
with key bytes `[0, 1]` (base58 `"12"`). -/
theorem getAccountDetails_shape_witness :
    Account.getAccountDetails okAccount "alice" =
      Except.ok
        { authorizedApps := [{ contractId := "contractX", amount := 5,
                               publicKey := "12" }],
          transactions := [] } ∧
    Account.getAccountDetails okAccount "alice" =
      Except.ok
        { authorizedApps :=
            (okAccount.nearClient.decodeResponseValue
                (⟨⟨0⟩⟩ : RpcResponse Nat).response.value).map fun entry =>
              { contractId := entry.2.contract_id, amount := entry.2.amount,
                publicKey := KeyPair.encodeBufferInBs58 entry.1 },
          transactions := [] } :=
  ⟨by
    have h := (getAccountDetails_shape okAccount "alice" ⟨⟨0⟩⟩ rfl).1
    rw [h]
    exact congrArg Except.ok (by decide),
   (getAccountDetails_shape okAccount "alice" ⟨⟨0⟩⟩ rfl).1⟩

/-! ## The base58 round trip (C8) -/

/-- With enough fuel, `natDigitsLE` agrees with `Nat.digits`. -/
theorem natDigitsLE_eq_digits (b : Nat) (hb : 2 ≤ b) :
    ∀ fuel n, n ≤ fuel → natDigitsLE b fuel n = Nat.digits b n := by
  intro fuel
  induction fuel with
  | zero =>
    intro n hn
    interval_cases n
    simp [natDigitsLE]
  | succ k ih =>
    intro n hn
    match n with
    | 0 => simp [natDigitsLE]
    | m + 1 =>
      rw [natDigitsLE, Nat.digits_def' (by omega : 1 < b) (Nat.succ_pos m)]
      have hdiv : (m + 1) / b ≤ k := by
        have h1 : (m + 1) / b < m + 1 := Nat.div_lt_self (Nat.succ_pos m) (by omega)
        omega
      rw [ih _ hdiv]

/-- `takeWhile` walks through a block of elements satisfying the predicate. -/
theorem takeWhile_replicate_append {α : Type} (p : α → Bool) (a : α) (h : p a = true) :
    ∀ (z : Nat) (l : List α),
      List.takeWhile p (List.replicate z a ++ l) =
        List.replicate z a ++ List.takeWhile p l := by
  intro z
  induction z with
  | zero => intro l; simp
  | succ k ih =>
    intro l
    simp only [List.replicate_succ, List.cons_append, List.takeWhile_cons_of_pos h, ih]

/-- `dropWhile` skips a block of elements satisfying the predicate. -/
theorem dropWhile_replicate_append {α : Type} (p : α → Bool) (a : α) (h : p a = true) :
    ∀ (z : Nat) (l : List α),
      List.dropWhile p (List.replicate z a ++ l) = List.dropWhile p l := by
  intro z
  induction z with
  | zero => intro l; simp
  | succ k ih =>
    intro l
    simp only [List.replicate_succ, List.cons_append, List.dropWhile_cons_of_pos h, ih]

/-- The first element surviving `dropWhile` fails the predicate. -/
theorem dropWhile_head_false {α : Type} (p : α → Bool) :
    ∀ (l : List α) (c : α) (r : List α), List.dropWhile p l = c :: r → p c = false := by
  intro l
  induction l with
  | nil => intro c r h; simp [List.dropWhile] at h
  | cons a t ih =>
    intro c r h
    by_cases hp : p a = true
    · rw [List.dropWhile_cons_of_pos hp] at h
      exact ih c r h
    · rw [List.dropWhile_cons_of_neg hp] at h
      cases h
      simpa using hp

/-- Every base58 digit value is below 58. -/
theorem b58Val_lt58 : ∀ c ∈ base58Alphabet, b58Val c < 58 := by decide

/-- Mapping a base58 character to its value and back is the identity. -/
theorem b58Val_getD : ∀ c ∈ base58Alphabet, base58Alphabet.getD (b58Val c) ' ' = c := by
  decide

/-- Only `'1'` has base58 digit value zero. -/
theorem b58Val_ne_zero : ∀ c ∈ base58Alphabet, c ≠ '1' → b58Val c ≠ 0 := by decide

/-- On a valid base58 string, `bs58decode` yields leading zero bytes for
leading `'1'` characters and the base-256 digits of the base-58 value of the
remainder. -/
theorem bs58decode_eq_of_valid (s : String)
    (hv : ∀ c ∈ s.toList, c ∈ base58Alphabet) :
    bs58decode s =
      some (List.replicate
          (s.toList.takeWhile fun c => decide (c = '1')).length 0 ++
        (Nat.digits 256 (Nat.ofDigits 58
          ((s.toList.dropWhile fun c => decide (c = '1')).map b58Val).reverse)).reverse) := by
  simp only [bs58decode, if_pos hv]
  rw [natDigitsLE_eq_digits 256 (by omega) _ _ le_rfl]

/-- `bs58encode`, expressed through `Nat.digits`. -/
theorem bs58encode_eq (bytes : List Nat) :
    bs58encode bytes =
      String.mk (List.replicate (bytes.takeWhile fun d => decide (d = 0)).length '1' ++
        ((Nat.digits 58 (Nat.ofDigits 256
            (bytes.dropWhile fun d => decide (d = 0)).reverse)).reverse.map
          fun d => base58Alphabet.getD d ' ')) := by
  simp only [bs58encode]
  rw [natDigitsLE_eq_digits 58 (by omega) _ _ le_rfl]

/-- Rebuilding a string from its character list is the identity. -/
theorem string_mk_toList (s : String) : String.mk s.toList = s := rfl

/-- Core of the base58 round trip, at the level of character lists: if `T` is
a block of `'1'`s and `t` starts with a non-`'1'` alphabet character, then
encoding the bytes decoded from `T ++ t` yields `T ++ t` back. -/
theorem bs58_roundtrip_core (T t : List Char)
    (hTrep : T = List.replicate T.length '1')
    (htmem : ∀ c ∈ t, c ∈ base58Alphabet)
    (hthead : ∀ c r, t = c :: r → c ≠ '1') :
    bs58encode (List.replicate T.length 0 ++
        (Nat.digits 256 (Nat.ofDigits 58 (t.map b58Val).reverse)).reverse) =
      String.mk (T ++ t) := by
  cases t with
  | nil =>
      simp only [List.map_nil, List.reverse_nil, Nat.ofDigits_nil, Nat.digits_zero,
        List.append_nil, bs58encode_eq]
      have htw : (List.replicate T.length (0 : Nat)).takeWhile
          (fun d => decide (d = 0)) = List.replicate T.length 0 := by
        simpa using takeWhile_replicate_append (fun d : Nat => decide (d = 0)) 0
          (by decide) T.length []
      have hdw : (List.replicate T.length (0 : Nat)).dropWhile
          (fun d => decide (d = 0)) = [] := by
        simpa using dropWhile_replicate_append (fun d : Nat => decide (d = 0)) 0
          (by decide) T.length []
      rw [htw, hdw, List.length_replicate]
      simp only [List.reverse_nil, Nat.ofDigits_nil, Nat.digits_zero, List.map_nil,
        List.append_nil]
      exact congrArg String.mk hTrep.symm
  | cons c t' =>
      have hc1 : c ≠ '1' := hthead c t' rfl
      have hcmem : c ∈ base58Alphabet := htmem c (List.mem_cons_self c t')
      set n := Nat.ofDigits 58 ((c :: t').map b58Val).reverse with hndef
      have hd58 : Nat.digits 58 n = ((c :: t').map b58Val).reverse := by
        refine Nat.digits_ofDigits 58 (by omega) _ ?_ ?_
        · intro l hl
          obtain ⟨d, hd, rfl⟩ := List.mem_map.mp (List.mem_reverse.mp hl)
          exact b58Val_lt58 d (htmem d hd)
        · intro hne
          have key : ∀ (L : List Nat) (hne2 : L ≠ []),
              L = (t'.map b58Val).reverse ++ [b58Val c] → L.getLast hne2 ≠ 0 := by
            intro L hne2 hEq
            subst hEq
            rw [List.getLast_concat]
            exact b58Val_ne_zero c hcmem hc1
          exact key _ hne (by simp)
      have hn0 : n ≠ 0 := by
        intro h0
        rw [h0, Nat.digits_zero] at hd58
        simp at hd58
      have hBne : Nat.digits 256 n ≠ [] := Nat.digits_ne_nil_iff_ne_zero.mpr hn0
      have hlast : (Nat.digits 256 n).getLast hBne ≠ 0 :=
        Nat.getLast_digit_ne_zero 256 hn0
      have hBrev : (Nat.digits 256 n).reverse =
          (Nat.digits 256 n).getLast hBne :: (Nat.digits 256 n).dropLast.reverse := by
        conv_lhs => rw [← List.dropLast_append_getLast hBne]
        simp
      rw [bs58encode_eq, hBrev,
        takeWhile_replicate_append (fun d : Nat => decide (d = 0)) 0 (by decide),
        dropWhile_replicate_append (fun d : Nat => decide (d = 0)) 0 (by decide),
        List.takeWhile_cons_of_neg (by simpa using hlast),
        List.dropWhile_cons_of_neg (by simpa using hlast),
        List.append_nil, List.length_replicate, ← hBrev, List.reverse_reverse,
        Nat.ofDigits_digits, hd58, List.reverse_reverse, List.map_map]
      have hmapback : (c :: t').map ((fun d => base58Alphabet.getD d ' ') ∘ b58Val) =
          c :: t' := by
        have h1 : ∀ x ∈ c :: t',
            ((fun d => base58Alphabet.getD d ' ') ∘ b58Val) x = id x := fun x hx =>
          b58Val_getD x (htmem x hx)
        rw [List.map_congr_left h1, List.map_id]
      rw [hmapback]
      exact congrArg String.mk (by rw [← hTrep])

/-- C8: for every valid base58 string `s` — every string `bs58decode`
accepts — encoding the decoded byte buffer yields `s` back: the
decode-then-encode round trip is the identity, for the same base58 helpers
the `Account` operations use for all key material. -/
theorem bs58_decode_encode_roundtrip (s : String) (bytes : List Nat)
    (h : bs58decode s = some bytes) : bs58encode bytes = s := by
  have hv : ∀ c ∈ s.toList, c ∈ base58Alphabet := by
    by_contra hnv
    rw [bs58decode, if_neg hnv] at h
    exact Option.noConfusion h
  rw [bs58decode_eq_of_valid s hv] at h
  injection h with h
  subst h
  have hTrep : s.toList.takeWhile (fun c => decide (c = '1')) =
      List.replicate (s.toList.takeWhile (fun c => decide (c = '1'))).length '1' := by
    rw [List.eq_replicate_length]
    intro c hc
    simpa using List.mem_takeWhile_imp hc
  have htmem : ∀ c ∈ s.toList.dropWhile (fun c => decide (c = '1')),
      c ∈ base58Alphabet := fun c hc =>
    hv c ((List.dropWhile_sublist fun c => decide (c = '1')).subset hc)
  have hthead : ∀ c r, s.toList.dropWhile (fun c => decide (c = '1')) = c :: r →
      c ≠ '1' := by
    intro c r hcr
    have := dropWhile_head_false (fun c => decide (c = '1')) s.toList c r hcr
    simpa using this
  rw [bs58_roundtrip_core _ _ hTrep htmem hthead, List.takeWhile_append_dropWhile,
    string_mk_toList]

/-- Witness for C8 on the standard test vector: `"StV1DL6CwTryKyV"` decodes to
the UTF-8 bytes of `"hello world"` and re-encodes to itself. -/
theorem bs58_decode_encode_roundtrip_witness :
    bs58encode (utf8Bytes "hello world") = "StV1DL6CwTryKyV" :=
  bs58_decode_encode_roundtrip "StV1DL6CwTryKyV" (utf8Bytes "hello world") (by decide)

end Nearlib
